import Mathlib

/-!
Verification of the layout type model of structs_layout against its
specification.  The Python class hierarchy in `fields.py` (base class
`Type` with concrete variants `Void`, `Bitfield`, `Scalar`,
`StructField`, `UnionField`, `Function`, `Pointer`, `Array`) is embedded
as the inductive type `Ty` below; each variant carries exactly the
attributes the corresponding `__init__` stores, and `tyEq` embeds the
per-class `__eq__` methods (each method checks the variant with
`isinstance`, compares the variant attributes, then delegates to the
base comparison of `total_size`; when both sides return NotImplemented,
Python falls back to identity, so distinct variants compare unequal).
Sizes are Python integers, embedded as `Int`.
-/

namespace StructsLayout

/-- The closed set of type variants from fields.py.  The Python base class
is named `Type`, which Lean reserves, hence `Ty`.  `Void.__init__` always
stores `total_size = 0`, so the `Void` variant carries no size.  `Scalar`
stores only a type-name string (the source has no signedness attribute);
`StructField` and `UnionField` store the referenced aggregate name, not
the referenced layout.  `Function` appears in the hierarchy with an
equality method comparing only `total_size`; its constructor can never
complete (see `Function_call`), but the variant is kept so that every
`__eq__` method of the source is embedded. -/
inductive Ty where
  | Void : Ty
  | Bitfield (total_size : Int) : Ty
  | Scalar (total_size : Int) (type_ : String) : Ty
  | StructField (total_size : Int) (type_ : String) : Ty
  | UnionField (total_size : Int) (type_ : String) : Ty
  | Function (total_size : Int) : Ty
  | Pointer (total_size : Int) (pointed_type : Ty) : Ty
  | Array (total_size : Int) (num_elem : Int) (elem_type : Ty) : Ty
deriving DecidableEq, Repr

/-- The `total_size` attribute stored by `Type.__init__` (always 0 for Void). -/
def total_size : Ty → Int
  | .Void => 0
  | .Bitfield n => n
  | .Scalar n _ => n
  | .StructField n _ => n
  | .UnionField n _ => n
  | .Function n => n
  | .Pointer n _ => n
  | .Array n _ _ => n

/-- Embedding of `==` on two fields.py type values.  Each same-variant
branch is the body of the corresponding `__eq__`: variant attributes
first, then the inherited `total_size` comparison; `Array.__eq__`
compares `num_elem`, then `elem_type`, then the size.  The catch-all
branch is the NotImplemented/identity fallback of Python, which yields
`False` for two distinct values of different variants. -/
def tyEq : Ty → Ty → Bool
  | .Void, .Void => true
  | .Bitfield n, .Bitfield m => n == m
  | .Scalar n t, .Scalar m u => t == u && n == m
  | .StructField n t, .StructField m u => t == u && n == m
  | .UnionField n t, .UnionField m u => t == u && n == m
  | .Function n, .Function m => n == m
  | .Pointer n p, .Pointer m q => tyEq p q && n == m
  | .Array n k e, .Array m l f => k == l && tyEq e f && n == m
  | _, _ => false

theorem tyEq_iff_eq : ∀ a b : Ty, tyEq a b = true ↔ a = b := by
  intro a
  induction a with
  | Void => intro b; cases b <;> simp [tyEq]
  | Bitfield n => intro b; cases b <;> simp [tyEq]
  | Scalar n t => intro b; cases b <;> simp [tyEq] <;> tauto
  | StructField n t => intro b; cases b <;> simp [tyEq] <;> tauto
  | UnionField n t => intro b; cases b <;> simp [tyEq] <;> tauto
  | Function n => intro b; cases b <;> simp [tyEq]
  | Pointer n p ih => intro b; cases b <;> simp [tyEq, ih] <;> tauto
  | Array n k e ih => intro b; cases b <;> simp [tyEq, ih] <;> tauto

/-- Test of the embedding on a value from the test suite: two structurally
equal pointer chains compare equal. -/
example : tyEq (.Pointer 64 (.Pointer 64 .Void)) (.Pointer 64 (.Pointer 64 .Void)) = true := by
  decide

example : tyEq (.Scalar 32 "int") (.Scalar 32 "unsigned int") = false := by decide

example : tyEq (.StructField 32 "a") (.UnionField 32 "a") = false := by decide

/-- Spec-side notion: the two values are the same variant. -/
def sameVariant : Ty → Ty → Bool
  | .Void, .Void => true
  | .Bitfield _, .Bitfield _ => true
  | .Scalar _ _, .Scalar _ _ => true
  | .StructField _ _, .StructField _ _ => true
  | .UnionField _ _, .UnionField _ _ => true
  | .Function _, .Function _ => true
  | .Pointer _ _, .Pointer _ _ => true
  | .Array _ _ _, .Array _ _ _ => true
  | _, _ => false

/-- Spec-side notion: all variant-specific attributes are equal, where a
nested owned type (the pointee of a Pointer, the element type of an
Array) is compared structurally, i.e. again by the three-part spec
characterization (same variant, equal attributes, equal sizes).  For a
pair of distinct variants no attribute requirement is imposed here; the
`sameVariant` conjunct of `StructurallyEqualSpec` already fails. -/
def variantAttrsEq : Ty → Ty → Prop
  | .Scalar _ t, .Scalar _ u => t = u
  | .StructField _ t, .StructField _ u => t = u
  | .UnionField _ t, .UnionField _ u => t = u
  | .Pointer _ p, .Pointer _ q =>
      sameVariant p q = true ∧ variantAttrsEq p q ∧ total_size p = total_size q
  | .Array _ k e, .Array _ l f =>
      k = l ∧ (sameVariant e f = true ∧ variantAttrsEq e f ∧ total_size e = total_size f)
  | _, _ => True

/-- The structural-equality characterization stated by the spec: same
variant, all variant-specific attributes equal (nested owned types
recursively so), and equal total sizes. -/
def StructurallyEqualSpec (a b : Ty) : Prop :=
  sameVariant a b = true ∧ variantAttrsEq a b ∧ total_size a = total_size b

/-- C1: for every two concrete type values `a` and `b`, the `==` of
fields.py holds iff `a` and `b` are the same variant, all
variant-specific attributes are equal (nested owned types compared
structurally), and the total sizes are equal; in particular two values
of distinct variants are never equal. -/
theorem tyEq_iff_structurallyEqualSpec :
    (∀ a b : Ty, tyEq a b = true ↔ StructurallyEqualSpec a b) ∧
    (∀ a b : Ty, sameVariant a b = false → tyEq a b = false) := by
  have main : ∀ a b : Ty, tyEq a b = true ↔ StructurallyEqualSpec a b := by
    intro a
    induction a with
    | Void =>
      intro b; cases b <;> simp [tyEq, StructurallyEqualSpec, sameVariant, variantAttrsEq, total_size]
    | Bitfield n =>
      intro b; cases b <;> simp [tyEq, StructurallyEqualSpec, sameVariant, variantAttrsEq, total_size]
    | Scalar n t =>
      intro b; cases b <;>
        simp [tyEq, StructurallyEqualSpec, sameVariant, variantAttrsEq, total_size] <;> tauto
    | StructField n t =>
      intro b; cases b <;>
        simp [tyEq, StructurallyEqualSpec, sameVariant, variantAttrsEq, total_size] <;> tauto
    | UnionField n t =>
      intro b; cases b <;>
        simp [tyEq, StructurallyEqualSpec, sameVariant, variantAttrsEq, total_size] <;> tauto
    | Function n =>
      intro b; cases b <;> simp [tyEq, StructurallyEqualSpec, sameVariant, variantAttrsEq, total_size]
    | Pointer n p ih =>
      intro b
      cases b <;>
        simp [tyEq, StructurallyEqualSpec, sameVariant, variantAttrsEq, total_size] <;>
        simp [StructurallyEqualSpec] at ih <;> rw [ih] <;> tauto
    | Array n k e ih =>
      intro b
      cases b <;>
        simp [tyEq, StructurallyEqualSpec, sameVariant, variantAttrsEq, total_size] <;>
        simp [StructurallyEqualSpec] at ih <;> rw [ih] <;> tauto
  refine ⟨main, ?_⟩
  intro a b hsv
  cases h : tyEq a b with
  | false => rfl
  | true => exact absurd ((main a b).mp h).1 (by simp [hsv])

/-- Witness for C1 at a concrete pair of distinct variants. -/
theorem tyEq_iff_structurallyEqualSpec_witness :
    sameVariant Ty.Void (Ty.Bitfield 3) = false ∧ tyEq Ty.Void (Ty.Bitfield 3) = false :=
  ⟨by decide, tyEq_iff_structurallyEqualSpec.2 Ty.Void (Ty.Bitfield 3) (by decide)⟩

/-- C4: the `==` of fields.py is an equivalence relation on type values:
reflexive, symmetric and transitive. -/
theorem tyEq_equivalence :
    (∀ a : Ty, tyEq a a = true) ∧
    (∀ a b : Ty, tyEq a b = true → tyEq b a = true) ∧
    (∀ a b c : Ty, tyEq a b = true → tyEq b c = true → tyEq a c = true) := by
  refine ⟨?_, ?_, ?_⟩
  · intro a; exact (tyEq_iff_eq a a).mpr rfl
  · intro a b h; exact (tyEq_iff_eq b a).mpr ((tyEq_iff_eq a b).mp h).symm
  · intro a b c h₁ h₂
    exact (tyEq_iff_eq a c).mpr (((tyEq_iff_eq a b).mp h₁).trans ((tyEq_iff_eq b c).mp h₂))

/-- Witness for C4: symmetry and transitivity applied at concrete values
from the test suite. -/
theorem tyEq_equivalence_witness :
    tyEq (Ty.Pointer 64 Ty.Void) (Ty.Pointer 64 Ty.Void) = true ∧
    tyEq (Ty.Scalar 32 "int") (Ty.Scalar 32 "int") = true :=
  ⟨tyEq_equivalence.2.1 (Ty.Pointer 64 Ty.Void) (Ty.Pointer 64 Ty.Void) (by decide),
   tyEq_equivalence.2.2 (Ty.Scalar 32 "int") (Ty.Scalar 32 "int") (Ty.Scalar 32 "int")
     (by decide) (by decide)⟩

/-- C5: equality of two StructField values (and of two UnionField values)
holds iff the referenced aggregate names and the total sizes are equal.
The referenced layout is not an input of the comparison at all — the
variants store only the name — so the equality is a total function that
never follows the reference, and comparing fields of self-referential
aggregates terminates. -/
theorem structField_unionField_eq_iff :
    (∀ (n₁ : Int) (s₁ : String) (n₂ : Int) (s₂ : String),
        tyEq (Ty.StructField n₁ s₁) (Ty.StructField n₂ s₂) = true ↔ s₁ = s₂ ∧ n₁ = n₂) ∧
    (∀ (n₁ : Int) (s₁ : String) (n₂ : Int) (s₂ : String),
        tyEq (Ty.UnionField n₁ s₁) (Ty.UnionField n₂ s₂) = true ↔ s₁ = s₂ ∧ n₁ = n₂) := by
  constructor <;> (intro n₁ s₁ n₂ s₂; simp [tyEq])

/-- A Python value passed to a constructor.  Only the shapes that occur
in the dumps and the tests are needed. -/
inductive PyVal where
  | int (n : Int) : PyVal
  | str (s : String) : PyVal
  | bool (b : Bool) : PyVal
  | ty (t : Ty) : PyVal
deriving DecidableEq, Repr

/-- A raised Python exception.  `typeError` is raised by the interpreter
on an arity mismatch; `invalidShape` is the validation failure the spec
names, listed so that its absence from every constructor below is
expressible. -/
inductive PyErr where
  | typeError : PyErr
  | invalidShape : PyErr
deriving DecidableEq, Repr

/-- Embedding of a call to `Type.__init__` of fields.py with an explicit
positional-argument list (besides `self`).  The signature is
`def __init__(self, total_size)`: exactly one argument is accepted and
stored unchecked; any other arity raises TypeError.  The result is the
stored `total_size` attribute. -/
def Type_init_call (args : List PyVal) : Except PyErr PyVal :=
  match args with
  | [total_size] => Except.ok total_size
  | _ => Except.error PyErr.typeError

/-- Embedding of a call `Scalar(args...)` in fields.py.  The signature is
`def __init__(self, total_size, type_)`: binding fails with TypeError
unless exactly two arguments are given; the body forwards `total_size`
to `Type.__init__` and stores `type_`.  The result is the pair of stored
attributes `(total_size, type)`. -/
def Scalar_call (args : List PyVal) : Except PyErr (PyVal × PyVal) :=
  match args with
  | [total_size, type_] =>
      match Type_init_call [total_size] with
      | Except.error e => Except.error e
      | Except.ok ts => Except.ok (ts, type_)
  | _ => Except.error PyErr.typeError

/-- Embedding of a call `Function(args...)` in fields.py.  The signature
is `def __init__(self, total_size, type_)`; the body calls
`super().__init__(total_size, type_)`, forwarding TWO arguments to
`Type.__init__`, which accepts one.  The `ok` branch builds the would-be
attribute pair, but it is unreachable. -/
def Function_call (args : List PyVal) : Except PyErr (PyVal × PyVal) :=
  match args with
  | [total_size, type_] =>
      match Type_init_call [total_size, type_] with
      | Except.error e => Except.error e
      | Except.ok ts => Except.ok (ts, type_)
  | _ => Except.error PyErr.typeError

/-- Embedding of a call `Array(total_size, num_elem, elem_type)` in
fields.py with matching arity.  The body is three attribute assignments
and contains no validation of any kind, so it always succeeds and stores
the stated total size unchanged. -/
def Array_init (total_size num_elem : Int) (elem_type : Ty) : Except PyErr Ty :=
  Except.ok (Ty.Array total_size num_elem elem_type)

/-- C10: every attempt to construct a Function value raises TypeError:
with any arity other than two the binding of `(total_size, type_)`
fails, and with exactly two arguments the body forwards both to
`Type.__init__`, which accepts only `total_size`.  Hence no Function
value, and so no Pointer whose pointee came from this constructor, is
ever created. -/
theorem Function_call_always_typeError :
    ∀ args : List PyVal, Function_call args = Except.error PyErr.typeError := by
  intro args
  match args with
  | [] => rfl
  | [_] => rfl
  | [_, _] => rfl
  | _ :: _ :: _ :: _ => rfl

/-- C3 (code evaluated at the failing input): the three-argument call
`Scalar(32, "int", True)` used throughout the test suite raises
TypeError, because `Scalar.__init__` of fields.py accepts only
`(total_size, type_)` and stores no signedness attribute at all. -/
theorem Scalar_call_test_input_typeError :
    Scalar_call [PyVal.int 32, PyVal.str "int", PyVal.bool true]
      = Except.error PyErr.typeError := rfl

/-- C2 (counterexample): `Array(7, 2, Bitfield(3))` states a total size
of 7 bits, which differs from `2 * 3`, yet construction succeeds and
stores 7 — no InvalidShape failure occurs. -/
theorem Array_init_no_validation :
    Array_init 7 2 (Ty.Bitfield 3) = Except.ok (Ty.Array 7 2 (Ty.Bitfield 3)) ∧
    total_size (Ty.Array 7 2 (Ty.Bitfield 3)) = 7 ∧
    (7 : Int) ≠ 2 * total_size (Ty.Bitfield 3) := by
  refine ⟨rfl, rfl, by decide⟩

/-- C2 (amended): Array construction never fails — there is no
InvalidShape (or any other) check in `Array.__init__` — and the stored
total size is exactly the argument, whether or not it equals
`num_elem * total_size elem_type` and whether or not it is negative.
The product invariant therefore holds only for the arrays the external
tool emits, not by construction. -/
theorem Array_init_always_succeeds :
    ∀ (t n : Int) (e : Ty),
      Array_init t n e = Except.ok (Ty.Array t n e) ∧
      total_size (Ty.Array t n e) = t := by
  intro t n e
  exact ⟨rfl, rfl⟩

/-- Modelled from the spec: the `Struct` (Layout) class is imported by the
tests from `python.fields` but is absent from the `fields.py` under
`src/`.  Per the spec data model, a Layout record carries
`total_size_bits` and an ordered mapping from field name to the pair
(offset in bits, field type); the mapping is embedded as an
insertion-ordered association list. -/
structure Struct where
  total_size : Int
  fields : List (String × (Int × Ty))
deriving DecidableEq, Repr

/-- Lookup of a field by name in the ordered mapping of a Layout. -/
def Struct.getField (s : Struct) (nm : String) : Option (Int × Ty) :=
  Option.map Prod.snd (s.fields.find? (fun p => p.1 == nm))

/-- The Layout Table: the result of ingesting a dump, mapping aggregate
names to Layout records, in dump order. -/
abbrev LayoutTable := List (String × Struct)

/-- Lookup of an aggregate by name in a Layout Table. -/
def LayoutTable.get (tbl : LayoutTable) (nm : String) : Option Struct :=
  Option.map Prod.snd (tbl.find? (fun p => p.1 == nm))

theorem find_assoc_iff {β : Type} :
    ∀ (l : List (String × β)), (l.map Prod.fst).Nodup →
      ∀ (nm : String) (e : β),
        (nm, e) ∈ l ↔ Option.map Prod.snd (l.find? (fun p => p.1 == nm)) = some e := by
  intro l
  induction l with
  | nil => intro _ nm e; simp
  | cons a t ih =>
    intro hnd nm e
    rw [List.map_cons, List.nodup_cons] at hnd
    obtain ⟨ha, hnd⟩ := hnd
    rcases a with ⟨k, v⟩
    by_cases h : k = nm
    · subst h
      rw [List.find?_cons_of_pos _ (by simp)]
      simp only [Option.map_some', Option.some.injEq, List.mem_cons, Prod.mk.injEq, true_and]
      constructor
      · rintro (rfl | hm)
        · rfl
        · exact absurd (List.mem_map_of_mem Prod.fst hm) (by simpa using ha)
      · rintro rfl
        exact Or.inl rfl
    · rw [List.find?_cons_of_neg _ (by simp [h])]
      rw [← ih hnd nm e]
      have hne : ¬ nm = k := fun hh => h hh.symm
      simp [List.mem_cons, Prod.mk.injEq, hne]

/-- C6: a Layout record exposes `total_size` and an ordered,
name-keyed mapping of fields: when field names are unique within the
aggregate, a pair (offset, type) is stored under a name exactly when the
lookup of that name returns it; likewise a Layout Table keyed by unique
aggregate names maps each name to its record. -/
theorem struct_fields_mapping :
    (∀ (s : Struct), (s.fields.map Prod.fst).Nodup →
        ∀ (nm : String) (e : Int × Ty), (nm, e) ∈ s.fields ↔ s.getField nm = some e) ∧
    (∀ (tbl : LayoutTable), (tbl.map Prod.fst).Nodup →
        ∀ (nm : String) (st : Struct), (nm, st) ∈ tbl ↔ LayoutTable.get tbl nm = some st) := by
  constructor
  · intro s h nm e
    exact find_assoc_iff s.fields h nm e
  · intro tbl h nm st
    exact find_assoc_iff tbl h nm st

/-- The layout of `struct x { int y; unsigned char z; };` from the test
suite, used as a concrete witness input. -/
def xLayout : Struct :=
  ⟨64, [("y", (0, Ty.Scalar 32 "int")), ("z", (32, Ty.Scalar 8 "unsigned char"))]⟩

/-- Witness for C6 at the concrete layout of `struct x`. -/
theorem struct_fields_mapping_witness :
    (xLayout.fields.map Prod.fst).Nodup ∧
    xLayout.getField "z" = some (32, Ty.Scalar 8 "unsigned char") :=
  ⟨by decide,
   (struct_fields_mapping.1 xLayout (by decide) "z" (32, Ty.Scalar 8 "unsigned char")).mp
     (by simp [xLayout])⟩

/-- Modelled from the spec: the component that chooses table keys and
selects which aggregates to emit is the external compiler plugin, whose
sources are not under `src/` (only the tests exercise it).  An aggregate
declaration of a translation unit is summarized by its optional tag
name, its optional typedef name, and its layout. -/
structure AggDecl where
  tag : Option String
  typedefName : Option String
  layout : Struct
deriving DecidableEq, Repr

/-- Modelled from the spec: the naming rule of the ingestion protocol.
A tagged aggregate is keyed by its tag, never by a typedef alias; an
anonymous aggregate introduced only via typedef is keyed by the typedef
name; an aggregate with neither name yields no table key. -/
def aggKey (d : AggDecl) : Option String :=
  match d.tag with
  | some t => some t
  | none => d.typedefName

/-- Modelled from the spec: ingestion with no target filter maps every
keyed aggregate of the translation unit into the Layout Table. -/
def ingestAll (tu : List AggDecl) : LayoutTable :=
  tu.filterMap (fun d => Option.map (fun k => (k, d.layout)) (aggKey d))

/-- C8: a tagged aggregate is keyed by its tag name regardless of any
typedef alias, an anonymous aggregate is keyed by its typedef name, and
on the two translation units of the spec scenario the table contains
exactly the prescribed key: `struct s` with alias `s_t` yields key "s"
and no key "s_t"; `typedef struct ... s_t` yields key "s_t" and no key
"s". -/
theorem table_keying_rules :
    (∀ (d : AggDecl) (t : String), d.tag = some t → aggKey d = some t) ∧
    (∀ (d : AggDecl), d.tag = none → aggKey d = d.typedefName) ∧
    (∀ (L : Struct),
        LayoutTable.get (ingestAll [⟨some "s", some "s_t", L⟩]) "s" = some L ∧
        LayoutTable.get (ingestAll [⟨some "s", some "s_t", L⟩]) "s_t" = none) ∧
    (∀ (L : Struct),
        LayoutTable.get (ingestAll [⟨none, some "s_t", L⟩]) "s_t" = some L ∧
        LayoutTable.get (ingestAll [⟨none, some "s_t", L⟩]) "s" = none) := by
  refine ⟨?_, ?_, ?_, ?_⟩
  · intro d t h
    simp [aggKey, h]
  · intro d h
    simp [aggKey, h]
  · intro L
    exact ⟨rfl, rfl⟩
  · intro L
    exact ⟨rfl, rfl⟩

/-- Witness for C8 at concrete declarations. -/
theorem table_keying_rules_witness :
    aggKey ⟨some "s", some "s_t", ⟨0, []⟩⟩ = some "s" ∧
    aggKey ⟨none, some "s_t", ⟨0, []⟩⟩ = some "s_t" :=
  ⟨table_keying_rules.1 ⟨some "s", some "s_t", ⟨0, []⟩⟩ "s" rfl,
   table_keying_rules.2.1 ⟨none, some "s_t", ⟨0, []⟩⟩ rfl⟩

/-- The aggregate names referenced by a type value, looking through
pointers and arrays, as the transitive-closure rule of the spec
prescribes. -/
def tyRefs : Ty → List String
  | Ty.StructField _ nm => [nm]
  | Ty.UnionField _ nm => [nm]
  | Ty.Pointer _ p => tyRefs p
  | Ty.Array _ _ e => tyRefs e
  | _ => []

/-- The aggregate names referenced by the fields of a declaration. -/
def AggDecl.refs (d : AggDecl) : List String :=
  d.layout.fields.bind (fun f => tyRefs f.2.2)

/-- One expansion step of the reachable-name set: every declaration
whose key is already reachable contributes its referenced names. -/
def reachStep (tu : List AggDecl) (acc : List String) : List String :=
  acc ++ tu.bind (fun d =>
    match aggKey d with
    | some k => if acc.contains k then AggDecl.refs d else []
    | none => [])

/-- Modelled from the spec: the names reachable from a target aggregate
through named references, computed by iterating the expansion step once
per declaration of the translation unit. -/
def reachable (tu : List AggDecl) (x : String) : List String :=
  Nat.iterate (reachStep tu) tu.length [x]

/-- Modelled from the spec: ingestion keeps only the target and the
aggregates reachable from it when a target name is given, and every
keyed aggregate otherwise. -/
def ingest (tu : List AggDecl) (target : Option String) : LayoutTable :=
  match target with
  | none => ingestAll tu
  | some x => (ingestAll tu).filter (fun e => (reachable tu x).contains e.1)

/-- C9: with a target name, an aggregate whose key is not reachable from
the target is absent from the resulting Layout Table; with no target,
every keyed aggregate of the translation unit is present. -/
theorem ingest_target_filtering :
    (∀ (tu : List AggDecl) (x k : String),
        k ∉ reachable tu x → LayoutTable.get (ingest tu (some x)) k = none) ∧
    (∀ (tu : List AggDecl) (d : AggDecl) (k : String),
        d ∈ tu → aggKey d = some k →
          (LayoutTable.get (ingest tu none) k).isSome = true) := by
  constructor
  · intro tu x k hk
    unfold LayoutTable.get ingest
    rw [Option.map_eq_none', List.find?_eq_none]
    intro p hp hbeq
    rw [List.mem_filter] at hp
    have hpk : p.1 = k := by simpa using hbeq
    refine hk ?_
    have := hp.2
    rw [hpk] at this
    exact List.mem_of_elem_eq_true this
  · intro tu d k hd hkey
    have hmem : (k, d.layout) ∈ ingestAll tu := by
      unfold ingestAll
      exact List.mem_filterMap.mpr ⟨d, hd, by simp [hkey]⟩
    unfold LayoutTable.get ingest
    rw [Option.isSome_map', List.find?_isSome]
    exact ⟨(k, d.layout), hmem, by simp⟩

/-- The translation unit of the spec scenario for target filtering: two
unrelated structs `a` and `b`. -/
def tuEx : List AggDecl :=
  [⟨some "a", none, ⟨32, [("x", (0, Ty.Scalar 32 "int"))]⟩⟩,
   ⟨some "b", none, ⟨32, [("y", (0, Ty.Scalar 32 "int"))]⟩⟩]

/-- Witness for C9: filtering on `b` removes `a`; dumping all keeps `a`. -/
theorem ingest_target_filtering_witness :
    ("a" ∉ reachable tuEx "b" ∧
      LayoutTable.get (ingest tuEx (some "b")) "a" = none) ∧
    (LayoutTable.get (ingest tuEx none) "a").isSome = true :=
  ⟨⟨by decide, ingest_target_filtering.1 tuEx "b" "a" (by decide)⟩,
   ingest_target_filtering.2 tuEx ⟨some "a", none, ⟨32, [("x", (0, Ty.Scalar 32 "int"))]⟩⟩ "a"
     (by decide) (by decide)⟩

end StructsLayout
